import Mathlib

/-!
# go-slog: syslog priority codec, connection manager and file rotation

A shallow embedding of `syslog.go` and `logfile.go`.

* Go `int` values (`Priority`) are `Int`; `&` and `|` are `Int.land` and `Int.lor`
  (two's complement, as in Go).  Every value that occurs is far below `2^63`.
* Go strings are `String`; `len` is the UTF-8 byte length.
* The outside world (sockets, files, clock, process table) is an `Env` of oracles.
  Each oracle sees the list of external calls made so far, so any sequence of
  outcomes can be expressed.  Every external call is appended to a trace of `Event`s.
* Stateful methods take and return a `St`: the `Logger` together with the trace.
* The mutex (`l.Lock()` / `l.Unlock()`) is not modelled: one call runs at a time.
-/

namespace Slog

/-! ## Priorities -/

/-- Go `type Priority int`. -/
abbrev Priority := Int

def LOG_KERN : Priority := 0 <<< 3
def LOG_USER : Priority := 1 <<< 3
def LOG_MAIL : Priority := 2 <<< 3
def LOG_DAEMON : Priority := 3 <<< 3
def LOG_AUTH : Priority := 4 <<< 3
def LOG_SYSLOG : Priority := 5 <<< 3
def LOG_LPR : Priority := 6 <<< 3
def LOG_NEWS : Priority := 7 <<< 3
def LOG_UUCP : Priority := 8 <<< 3
def LOG_CRON : Priority := 9 <<< 3
def LOG_AUTHPRIV : Priority := 10 <<< 3
def LOG_FTP : Priority := 11 <<< 3
def LOG_LOCAL0 : Priority := 16 <<< 3
def LOG_LOCAL1 : Priority := 17 <<< 3
def LOG_LOCAL2 : Priority := 18 <<< 3
def LOG_LOCAL3 : Priority := 19 <<< 3
def LOG_LOCAL4 : Priority := 20 <<< 3
def LOG_LOCAL5 : Priority := 21 <<< 3
def LOG_LOCAL6 : Priority := 22 <<< 3
def LOG_LOCAL7 : Priority := 23 <<< 3

/-- The value `iota << 3` of the facility constant in row `i` of the const block. -/
def facilityOf (i : Nat) : Priority := (i : Int) <<< 3

def severityMask : Priority := 0x07
def facilityMask : Priority := 0xf8

/-- Modelled from the spec: the severity constants are declared outside `syslog.go`;
the data model gives Emergency(0), Alert(1), Critical(2), Error(3), Warning(4),
Notice(5), Info(6), Debug(7). -/
def LOG_EMERG : Priority := 0
/-- Modelled from the spec: Alert(1). -/
def LOG_ALERT : Priority := 1
/-- Modelled from the spec: Critical(2). -/
def LOG_CRIT : Priority := 2
/-- Modelled from the spec: Error(3). -/
def LOG_ERR : Priority := 3
/-- Modelled from the spec: Warning(4). -/
def LOG_WARNING : Priority := 4
/-- Modelled from the spec: Notice(5). -/
def LOG_NOTICE : Priority := 5
/-- Modelled from the spec: Info(6). -/
def LOG_INFO : Priority := 6
/-- Modelled from the spec: Debug(7). -/
def LOG_DEBUG : Priority := 7

/-- The packing used by callers: `facility | severity` with `facility = f << 3`. -/
def encode (f s : Nat) : Priority := Int.lor (facilityOf f) (s : Int)

/-! ## Errors, handles, events -/

/-- Go `error` values.  Go compares errors by identity, so the value made by
`errors.New` inside `Dial` is distinct from every error handed back by the
connection or file layer. -/
inductive GoError where
  | errorsNew (text : String)
  | sys (text : String)
  deriving DecidableEq, Repr

/-- Identity of a `net.Conn`. -/
abbrev NetHandle := Nat

/-- Identity of an `*os.File`. -/
abbrev File := Nat

/-- Go `netConn`; the field `local` is spelled `local_`. -/
structure netConn where
  local_ : Bool
  conn : NetHandle
  deriving DecidableEq, Repr

/-- Go `serverConn`: the interface, with `netConn` as its implementation. -/
abbrev serverConn := netConn

/-- The two layouts passed to `time.Now().Format`. -/
inductive TimeLayout where
  | Stamp
  | RFC3339
  deriving DecidableEq, Repr

/-- The value `os.O_RDWR|os.O_APPEND|os.O_CREATE` (Linux numbering). -/
def openFlags : Nat := 0x2 ||| 0x400 ||| 0x40

/-- External calls, in the order they are made. -/
inductive Event where
  | connClose (c : NetHandle)
  | unixSyslog
  | netDial (network raddr : String)
  | connWrite (c : NetHandle) (data : String)
  | openFile (name : String) (flag : Nat) (perm : Nat)
  | fileClose (f : File)
  deriving DecidableEq, Repr

/-- The outside world.  Each oracle receives the trace of the calls made before it. -/
structure Env where
  /-- Value of `os.Args[0]`. -/
  args0 : String
  /-- Value pair of `os.Hostname()`. -/
  osHostname : String × Option String
  /-- Value of `os.Getpid()`. -/
  getpid : Int
  /-- Value of `time.Now().Format(layout)`. -/
  timeNowFormat : List Event → TimeLayout → String
  /-- Modelled from the spec: `unixSyslog` lives in `syslog_unix.go`, which is not
  among the sources.  The spec describes it as an attempt "to open a local
  well-known syslog socket" that yields a connection or an error. -/
  unixSyslog : List Event → Except String serverConn
  /-- Outcome of `net.Dial(network, raddr)`. -/
  netDial : List Event → String → String → Except String NetHandle
  /-- Value of `c.LocalAddr().String()`. -/
  localAddr : NetHandle → String
  /-- Error of the single `Write` that `fmt.Fprintf` issues on a `net.Conn`. -/
  connWrite : List Event → NetHandle → String → Option String
  /-- Error of `net.Conn.Close`. -/
  connClose : List Event → NetHandle → Option String
  /-- Outcome of `os.OpenFile(name, flag, perm)`. -/
  openFile : List Event → String → Nat → Nat → Except String File
  /-- Error of `(*os.File).Close`. -/
  fileClose : List Event → File → Option String

/-! ## Logger -/

/-- Modelled from the spec: the backend kind is declared outside the given sources;
the data model lists console, file and syslog.  Only `tsyslog` is named in
`syslog.go`. -/
inductive LogType where
  | tconsole
  | tfile
  | tsyslog
  deriving DecidableEq, Repr

/-- Modelled from the spec: the `Logger` struct is declared outside the given
sources.  The fields are those that `syslog.go` and `logfile.go` read or assign,
plus `out` and `flag`: the sink installed by `SetOutput` / `New` and the format
flags given to `New`. -/
structure Logger where
  network : String := ""
  raddr : String := ""
  tag : String := ""
  facility : Priority := 0
  level : Priority := 0
  hostname : String := ""
  logType : LogType := LogType.tconsole
  DefaultLogLevel : Priority := 0
  FatalLogLevel : Priority := 0
  PanicLogLevel : Priority := 0
  conn : Option serverConn := none
  file : Option File := none
  out : Option File := none
  flag : Int := 0
  deriving DecidableEq, Repr

/-- A Logger together with the trace of external calls made so far. -/
structure St where
  l : Logger
  trace : List Event
  deriving DecidableEq, Repr

/-! ## fmt.Fprintf, for the verbs used here -/

/-- An operand of `Fprintf`. -/
inductive Arg where
  | int (i : Int)
  | str (s : String)

/-- Rendering of one operand under one verb: `%d` of an integer is its decimal
form, `%s` of a string is the string; any other pairing gives Go's bad-verb text. -/
def formatArg (verb : Char) (a : Arg) : List Char :=
  match a with
  | Arg.int i =>
    if verb = 'd' then (toString i).data
    else ['%', '!', verb] ++ "(int=".data ++ (toString i).data ++ [')']
  | Arg.str s =>
    if verb = 's' then s.data
    else ['%', '!', verb] ++ "(string=".data ++ s.data ++ [')']

/-- The formatting loop: literal characters are copied, `%%` is a percent sign,
`%v` consumes the next operand. -/
def sprintfAux : List Char → List Arg → List Char
  | [], _ => []
  | [c], _ => if c = '%' then "%!(NOVERB)".data else [c]
  | c :: v :: rest, args =>
    if c = '%' then
      if v = '%' then '%' :: sprintfAux rest args
      else
        match args with
        | [] => ['%', '!', v] ++ "(MISSING)".data ++ sprintfAux rest []
        | a :: as => formatArg v a ++ sprintfAux rest as
    else c :: sprintfAux (v :: rest) args

/-- The text `fmt.Fprintf(w, format, args...)` hands to `w.Write`. -/
def Sprintf (format : String) (args : List Arg) : String :=
  String.mk (sprintfAux format.data args)

/-- Go `strings.HasSuffix`. -/
def HasSuffix (s suffix : String) : Bool :=
  suffix.data.isSuffixOf s.data

/-! ## netConn -/

/-- Go `(*netConn).close`: `n.conn.Close()`. -/
def netConn.close (env : Env) (tr : List Event) (n : netConn) :
    List Event × Option GoError :=
  (tr ++ [Event.connClose n.conn], (env.connClose tr n.conn).map GoError.sys)

/-- The line `(*netConn).writeString` formats, before it is written. -/
def netConn.line (env : Env) (tr : List Event) (n : netConn) (p : Priority)
    (hostname tag msg nl : String) : String :=
  if n.local_ then
    let timestamp := env.timeNowFormat tr TimeLayout.Stamp
    Sprintf "<%d>%s %s[%d]: %s%s"
      [Arg.int p, Arg.str timestamp, Arg.str tag, Arg.int env.getpid, Arg.str msg, Arg.str nl]
  else
    let timestamp := env.timeNowFormat tr TimeLayout.RFC3339
    Sprintf "<%d>%s %s %s[%d]: %s%s"
      [Arg.int p, Arg.str timestamp, Arg.str hostname, Arg.str tag, Arg.int env.getpid,
        Arg.str msg, Arg.str nl]

/-- Go `(*netConn).writeString`: format the line, write it to `n.conn`, return the
write's error. -/
def netConn.writeString (env : Env) (tr : List Event) (n : netConn) (p : Priority)
    (hostname tag msg nl : String) : List Event × Option GoError :=
  let data := n.line env tr p hostname tag msg nl
  (tr ++ [Event.connWrite n.conn data], (env.connWrite tr n.conn data).map GoError.sys)

/-! ## Connection manager -/

/-- First half of `connect` (the `if l.conn != nil` block): close and clear. -/
def connectClose (env : Env) (s : St) : St :=
  match s.l.conn with
  | some c =>
    -- ignore err from close, it makes sense to continue anyway
    let r := c.close env s.trace
    { l := { s.l with conn := none }, trace := r.1 }
  | none => s

/-- Second half of `connect`: local socket discovery or dial. -/
def connectOpen (env : Env) (s : St) : St × Option GoError :=
  if s.l.network = "" then
    let tr := s.trace ++ [Event.unixSyslog]
    let hostname := if s.l.hostname = "" then "localhost" else s.l.hostname
    match env.unixSyslog s.trace with
    | Except.ok c =>
      ({ l := { s.l with conn := some c, hostname := hostname }, trace := tr }, none)
    | Except.error e =>
      ({ l := { s.l with conn := none, hostname := hostname }, trace := tr },
        some (GoError.sys e))
  else
    let tr := s.trace ++ [Event.netDial s.l.network s.l.raddr]
    match env.netDial s.trace s.l.network s.l.raddr with
    | Except.ok c =>
      let hostname := if s.l.hostname = "" then env.localAddr c else s.l.hostname
      ({ l := { s.l with conn := some { local_ := false, conn := c }, hostname := hostname },
         trace := tr }, none)
    | Except.error e => ({ l := s.l, trace := tr }, some (GoError.sys e))

/-- Go `(*Logger).connect`. -/
def connect (env : Env) (s : St) : St × Option GoError :=
  connectOpen env (connectClose env s)

/-- The terminator chosen by `syslogWrite`. -/
def terminator (msg : String) : String :=
  if !HasSuffix msg "\n" then "\n" else ""

/-- Go `(*Logger).syslogWrite`.  `none` is the run-time panic of calling
`writeString` on a nil `l.conn`. -/
def syslogWrite (env : Env) (s : St) (p : Priority) (msg : String) :
    Option (St × Int × Option GoError) :=
  let nl := terminator msg
  match s.l.conn with
  | none => none
  | some c =>
    match c.writeString env s.trace p s.l.hostname s.l.tag msg nl with
    | (tr, some err) => some ({ s with trace := tr }, 0, some err)
    | (tr, none) => some ({ s with trace := tr }, (msg.utf8ByteSize : Int), none)

/-- The combined priority computed on the first line of `syslogWriteAndRetry`. -/
def wirePriority (l : Logger) (p : Priority) : Priority :=
  Int.lor (Int.land l.facility facilityMask) (Int.land p severityMask)

/-- The tail of `syslogWriteAndRetry`: connect, then write. -/
def reconnectAndWrite (env : Env) (s : St) (pr : Priority) (msg : String) :
    Option (St × Int × Option GoError) :=
  match connect env s with
  | (s1, some err) => some (s1, 0, some err)
  | (s1, none) => syslogWrite env s1 pr msg

/-- Go `(*Logger).syslogWriteAndRetry`. -/
def syslogWriteAndRetry (env : Env) (s : St) (p : Priority) (msg : String) :
    Option (St × Int × Option GoError) :=
  let pr := wirePriority s.l p
  match s.l.conn with
  | some _ =>
    match syslogWrite env s pr msg with
    | none => none
    | some (s1, n, none) => some (s1, n, none)
    | some (s1, _, some _) => reconnectAndWrite env s1 pr msg
  | none => reconnectAndWrite env s pr msg

/-- The `&Logger{...}` literal built by `Dial` once the priority has been accepted. -/
def dialLogger (env : Env) (network raddr : String) (priority : Priority) (tag : String) :
    Logger :=
  let tag := if tag = "" then env.args0 else tag
  let hostname := env.osHostname.1
  { network := network
    raddr := raddr
    tag := tag
    facility := Int.land priority facilityMask
    level := Int.land priority severityMask
    hostname := hostname
    logType := LogType.tsyslog
    DefaultLogLevel := Int.land priority severityMask
    FatalLogLevel := LOG_CRIT
    PanicLogLevel := LOG_ALERT }

/-- Go `Dial`.  The result is the trace, the returned `*Logger` (`none` is nil)
and the returned error. -/
def Dial (env : Env) (tr : List Event) (network raddr : String) (priority : Priority)
    (tag : String) : List Event × Option Logger × Option GoError :=
  if priority < 0 ∨ priority > Int.lor LOG_LOCAL7 LOG_DEBUG then
    (tr, none, some (GoError.errorsNew "slog: invalid priority"))
  else
    let l := dialLogger env network raddr priority tag
    match connect env { l := l, trace := tr } with
    | (s, some err) => (s.trace, none, some err)
    | (s, none) => (s.trace, some s.l, none)

/-- Go `NewSyslog`. -/
def NewSyslog (env : Env) (tr : List Event) (priority : Priority) (tag : String) :
    List Event × Option Logger × Option GoError :=
  Dial env tr "" "" priority tag

/-! ## File backend and rotation -/

/-- Modelled from the spec: the console constructor is declared outside the given
sources; "newConsoleLogger(sink, tag, formatFlags)" builds a Logger whose sink,
tag and format flags are the arguments. -/
def New (out : Option File) (tag : String) (flag : Int) : Logger :=
  { out := out, tag := tag, flag := flag }

/-- Modelled from the spec: `SetOutput` is declared outside the given sources;
"SetOutput(sink)" replaces the sink that the non-syslog backends write to. -/
def Logger.SetOutput (l : Logger) (w : Option File) : Logger :=
  { l with out := w }

/-- Go `NewLogfile`.  The rotation goroutine it starts is `logRotate` below. -/
def NewLogfile (env : Env) (tr : List Event) (filename : String) (perm : Nat)
    (tag : String) (flag : Int) : List Event × Option Logger × Option GoError :=
  let l := New none tag flag
  let tr1 := tr ++ [Event.openFile filename openFlags perm]
  match env.openFile tr filename openFlags perm with
  | Except.error e => (tr1, none, some (GoError.sys e))
  | Except.ok f =>
    let l := { l with file := some f }
    let l := l.SetOutput l.file
    (tr1, some l, none)

/-- What one pass through the body of the `for` loop of `logRotate` leads to. -/
inductive Rotated where
  /-- The pass reached `l.Unlock()`. -/
  | unlocked (s : St)
  /-- Modelled from the spec: `Fatal` is declared outside the given sources; it
  "unconditionally terminates the process". -/
  | fatal (s : St) (err : GoError)
  deriving DecidableEq, Repr

/-- The body of the `for` loop of `logRotate`, run once when a SIGHUP arrives. -/
def logRotateStep (env : Env) (filename : String) (perm : Nat) (s : St) : Rotated :=
  -- first close if open
  let closed : St × Option GoError :=
    match s.l.file with
    | some f =>
      ({ s with trace := s.trace ++ [Event.fileClose f] },
        (env.fileClose s.trace f).map GoError.sys)
    | none => (s, none)
  match closed with
  | (s1, some err) => Rotated.fatal s1 err
  | (s1, none) =>
    -- reopen and append if existing or create
    let tr := s1.trace ++ [Event.openFile filename openFlags perm]
    match env.openFile s1.trace filename openFlags perm with
    | Except.ok f => Rotated.unlocked { l := { s1.l with file := some f }, trace := tr }
    | Except.error e =>
      Rotated.fatal { l := { s1.l with file := none }, trace := tr } (GoError.sys e)

/-- Go `logRotate`, run for the given number of SIGHUP signals. -/
def logRotate (env : Env) (filename : String) (perm : Nat) : Nat → St → Rotated
  | 0, s => Rotated.unlocked s
  | n + 1, s =>
    match logRotateStep env filename perm s with
    | Rotated.unlocked s1 => logRotate env filename perm n s1
    | Rotated.fatal s1 err => Rotated.fatal s1 err

/-! ## Counting external calls -/

/-- A connection attempt: socket discovery or dial. -/
def Event.isConnect : Event → Bool
  | Event.unixSyslog => true
  | Event.netDial _ _ => true
  | _ => false

/-- A write on a connection. -/
def Event.isWrite : Event → Bool
  | Event.connWrite _ _ => true
  | _ => false

/-- Number of connection attempts in a run of events. -/
def connectAttempts (evs : List Event) : Nat := evs.countP Event.isConnect

/-- Number of connection writes in a run of events. -/
def writeAttempts (evs : List Event) : Nat := evs.countP Event.isWrite

/-- The single external call made by the second half of `connect`. -/
def openEvent (l : Logger) : Event :=
  if l.network = "" then Event.unixSyslog else Event.netDial l.network l.raddr

/-- The error of the socket discovery or of the dial, as `connect` would see it. -/
def openError (env : Env) (s : St) : Option GoError :=
  if s.l.network = "" then
    match env.unixSyslog s.trace with
    | Except.ok _ => none
    | Except.error e => some (GoError.sys e)
  else
    match env.netDial s.trace s.l.network s.l.raddr with
    | Except.ok _ => none
    | Except.error e => some (GoError.sys e)

/-- The line `syslogWrite` has the connection `c` format for `msg` in state `s`. -/
def wireLine (env : Env) (s : St) (c : serverConn) (p : Priority) (msg : String) : String :=
  c.line env s.trace p s.l.hostname s.l.tag msg (terminator msg)

/-- The state in which `syslogWriteAndRetry` enters `connect`, when it gets there:
the initial state if there is no connection, else the state after the first write. -/
def beforeConnect (env : Env) (s : St) (p : Priority) (msg : String) : St :=
  match s.l.conn with
  | some c =>
    { s with trace := s.trace ++
        [Event.connWrite c.conn (wireLine env s c (wirePriority s.l p) msg)] }
  | none => s

/-- The external calls made between state `s` and the later state `t`. -/
def newEvents (s t : St) : List Event := t.trace.drop s.trace.length

/-- The outcome of the `connect` call inside `syslogWriteAndRetry`. -/
def afterConnect (env : Env) (s : St) (p : Priority) (msg : String) : St × Option GoError :=
  connect env (beforeConnect env s p msg)

/-! ## Sample environments -/

/-- A world in which every socket, dial, write, close and open succeeds; dialled
connections and opened files are numbered by the length of the trace. -/
def envUp : Env where
  args0 := "/usr/bin/app"
  osHostname := ("box", none)
  getpid := 4242
  timeNowFormat := fun _ layout =>
    match layout with
    | TimeLayout.Stamp => "Nov  1 21:16:00"
    | TimeLayout.RFC3339 => "2026-11-01T21:16:00Z"
  unixSyslog := fun tr => Except.ok { local_ := true, conn := tr.length + 1 }
  netDial := fun tr _ _ => Except.ok (tr.length + 1)
  localAddr := fun _ => "10.0.0.5:40000"
  connWrite := fun _ _ _ => none
  connClose := fun _ _ => none
  openFile := fun tr _ _ _ => Except.ok (tr.length + 1)
  fileClose := fun _ _ => none

/-- A world in which writes on connections fail and no socket can be reached. -/
def envDown : Env :=
  { envUp with
    unixSyslog := fun _ => Except.error "Unix syslog delivery error"
    netDial := fun _ _ _ => Except.error "dial tcp: connection refused"
    connWrite := fun _ _ _ => some "write: broken pipe" }

/-- A world in which writes fail until a connection attempt has been made, and
every connection attempt succeeds. -/
def envFlaky : Env :=
  { envUp with
    connWrite := fun tr _ _ => if tr.any Event.isConnect then none else some "write: broken pipe" }

/-- A world like `envUp` whose socket discovery and dial always hand back
connection number 99. -/
def envNinetyNine : Env :=
  { envUp with
    unixSyslog := fun _ => Except.ok { local_ := true, conn := 99 }
    netDial := fun _ _ _ => Except.ok 99 }

/-- A world like `envUp` in which closing a connection always reports an error. -/
def envCloseFails : Env :=
  { envUp with connClose := fun _ _ => some "close: bad file descriptor" }

/-- A state holding the dialled connection number 7 to a remote collector. -/
def stRemote : St :=
  ⟨{ dialLogger envUp "udp" "10.0.0.1:514" (encode 18 6) "my_app" with
      conn := some ⟨false, 7⟩ }, []⟩

/-- A syslog Logger for `LOG_LOCAL2|LOG_INFO` on the local socket, not yet connected. -/
def loggerLocal2 : Logger := dialLogger envUp "" "" (encode 18 6) "my_app"

/-- A state without a live connection. -/
def stFresh : St := ⟨loggerLocal2, []⟩

/-- A state holding the local connection number 1. -/
def stLive : St := ⟨{ loggerLocal2 with conn := some ⟨true, 1⟩ }, []⟩

end Slog

namespace Slog

set_option maxRecDepth 100000

/-! ## Priority codec -/

theorem lor_local7_debug : Int.lor LOG_LOCAL7 LOG_DEBUG = 191 := by decide

theorem encode_eq (f s : Nat) (hf : f ≤ 23) (hs : s ≤ 7) :
    encode f s = 8 * (f : Int) + s := by
  interval_cases f <;> interval_cases s <;> rfl

theorem facilityOf_eq (f : Nat) : facilityOf f = 8 * (f : Int) := by
  unfold facilityOf
  have h := Int.shiftLeft_eq_mul_pow (f : Int) 3
  norm_num at h
  rw [h]
  ring

theorem land_encode_facility (f s : Nat) (hf : f ≤ 23) (hs : s ≤ 7) :
    Int.land (encode f s) facilityMask = facilityOf f := by
  interval_cases f <;> interval_cases s <;> rfl

theorem land_encode_severity (f s : Nat) (hf : f ≤ 23) (hs : s ≤ 7) :
    Int.land (encode f s) severityMask = (s : Int) := by
  interval_cases f <;> interval_cases s <;> rfl

/-! ## Frame lemmas for connect -/

theorem connectClose_trace (env : Env) (s : St) :
    (connectClose env s).trace =
      s.trace ++ (match s.l.conn with
        | some c => [Event.connClose c.conn]
        | none => []) := by
  unfold connectClose
  cases h : s.l.conn <;> simp [netConn.close]

theorem connectClose_l (env : Env) (s : St) :
    (connectClose env s).l = { s.l with conn := none } := by
  unfold connectClose
  cases h : s.l.conn with
  | none =>
    have : s.l = { s.l with conn := none } := by
      cases s with
      | mk l tr =>
        cases l
        simp_all
    simpa using this
  | some c => simp

theorem openEvent_isConnect (l : Logger) : (openEvent l).isConnect = true := by
  unfold openEvent
  split <;> rfl

theorem openEvent_isWrite (l : Logger) : (openEvent l).isWrite = false := by
  unfold openEvent
  split <;> rfl

theorem connectOpen_trace (env : Env) (s : St) :
    (connectOpen env s).1.trace = s.trace ++ [openEvent s.l] := by
  by_cases hn : s.l.network = ""
  · cases hu : env.unixSyslog s.trace <;> simp_all [connectOpen, openEvent, openError]
  · cases hd : env.netDial s.trace s.l.network s.l.raddr <;>
      simp_all [connectOpen, openEvent, openError]

theorem connectOpen_err (env : Env) (s : St) :
    (connectOpen env s).2 = openError env s := by
  by_cases hn : s.l.network = ""
  · cases hu : env.unixSyslog s.trace <;> simp_all [connectOpen, openEvent, openError]
  · cases hd : env.netDial s.trace s.l.network s.l.raddr <;>
      simp_all [connectOpen, openEvent, openError]

theorem connectOpen_conn_err (env : Env) (s : St) (hc : s.l.conn = none)
    (h : (connectOpen env s).2 ≠ none) : (connectOpen env s).1.l.conn = none := by
  by_cases hn : s.l.network = ""
  · cases hu : env.unixSyslog s.trace <;> simp_all [connectOpen, openEvent, openError]
  · cases hd : env.netDial s.trace s.l.network s.l.raddr <;>
      simp_all [connectOpen, openEvent, openError]

theorem connectOpen_conn_ok (env : Env) (s : St) (h : (connectOpen env s).2 = none) :
    ∃ c, (connectOpen env s).1.l.conn = some c := by
  by_cases hn : s.l.network = ""
  · cases hu : env.unixSyslog s.trace <;> simp_all [connectOpen, openEvent, openError]
  · cases hd : env.netDial s.trace s.l.network s.l.raddr <;>
      simp_all [connectOpen, openEvent, openError]

theorem connectOpen_frame (env : Env) (s : St) :
    (connectOpen env s).1.l.facility = s.l.facility ∧
    (connectOpen env s).1.l.level = s.l.level ∧
    (connectOpen env s).1.l.DefaultLogLevel = s.l.DefaultLogLevel ∧
    (connectOpen env s).1.l.tag = s.l.tag ∧
    (connectOpen env s).1.l.network = s.l.network ∧
    (connectOpen env s).1.l.raddr = s.l.raddr := by
  by_cases hn : s.l.network = ""
  · cases hu : env.unixSyslog s.trace <;> simp_all [connectOpen, openEvent, openError]
  · cases hd : env.netDial s.trace s.l.network s.l.raddr <;>
      simp_all [connectOpen, openEvent, openError]

theorem connect_frame (env : Env) (s : St) :
    (connect env s).1.l.facility = s.l.facility ∧
    (connect env s).1.l.level = s.l.level ∧
    (connect env s).1.l.DefaultLogLevel = s.l.DefaultLogLevel ∧
    (connect env s).1.l.tag = s.l.tag ∧
    (connect env s).1.l.network = s.l.network ∧
    (connect env s).1.l.raddr = s.l.raddr := by
  unfold connect
  have h := connectOpen_frame env (connectClose env s)
  rw [connectClose_l] at h
  simpa using h

theorem connect_trace (env : Env) (s : St) :
    (connect env s).1.trace =
      (connectClose env s).trace ++ [openEvent s.l] := by
  unfold connect
  rw [connectOpen_trace, connectClose_l]
  rfl

theorem connect_conn_err (env : Env) (s : St) (h : (connect env s).2 ≠ none) :
    (connect env s).1.l.conn = none := by
  unfold connect at h ⊢
  apply connectOpen_conn_err _ _ _ h
  rw [connectClose_l]

theorem connect_conn_ok (env : Env) (s : St) (h : (connect env s).2 = none) :
    ∃ c, (connect env s).1.l.conn = some c :=
  connectOpen_conn_ok env _ h

/-! ## Dial -/

theorem Dial_invalid (env : Env) (tr : List Event) (network raddr : String)
    (priority : Priority) (tag : String) (h : priority < 0 ∨ priority > 191) :
    Dial env tr network raddr priority tag =
      (tr, none, some (GoError.errorsNew "slog: invalid priority")) := by
  unfold Dial
  rw [lor_local7_debug, if_pos h]

theorem Dial_valid (env : Env) (tr : List Event) (network raddr : String)
    (priority : Priority) (tag : String) (h : ¬ (priority < 0 ∨ priority > 191)) :
    Dial env tr network raddr priority tag =
      ((connect env ⟨dialLogger env network raddr priority tag, tr⟩).1.trace,
        (if (connect env ⟨dialLogger env network raddr priority tag, tr⟩).2 = none
          then some (connect env ⟨dialLogger env network raddr priority tag, tr⟩).1.l
          else none),
        (connect env ⟨dialLogger env network raddr priority tag, tr⟩).2) := by
  simp only [Dial, lor_local7_debug, if_neg h]
  generalize connect env ⟨dialLogger env network raddr priority tag, tr⟩ = r
  obtain ⟨s, e⟩ := r
  cases e <;> simp

theorem Dial_ok_fields (env : Env) (tr tr1 : List Event) (network raddr : String)
    (priority : Priority) (tag : String) (l : Logger) (e : Option GoError)
    (h : Dial env tr network raddr priority tag = (tr1, some l, e)) :
    l.facility = Int.land priority facilityMask ∧
    l.level = Int.land priority severityMask ∧
    l.DefaultLogLevel = Int.land priority severityMask ∧
    (∃ c, l.conn = some c) ∧ e = none := by
  by_cases hp : priority < 0 ∨ priority > 191
  · rw [Dial_invalid _ _ _ _ _ _ hp] at h
    simp at h
  · rw [Dial_valid _ _ _ _ _ _ hp] at h
    have hf := connect_frame env ⟨dialLogger env network raddr priority tag, tr⟩
    by_cases hc : (connect env ⟨dialLogger env network raddr priority tag, tr⟩).2 = none
    · have hk := connect_conn_ok env _ hc
      rw [if_pos hc] at h
      simp only [Prod.mk.injEq, Option.some.injEq] at h
      obtain ⟨_, hl, he⟩ := h
      subst hl
      refine ⟨hf.1, hf.2.1, hf.2.2.1, hk, ?_⟩
      rw [← he, hc]
    · rw [if_neg hc] at h
      simp at h

/-- C1. For a facility index `f` in [0,23] and a severity `s` in [0,7], the packed
priority `(f << 3) | s` passes the range check of `Dial`, and the masks used by `Dial`
give back both parts: `p & facilityMask = f << 3` and `p & severityMask = s`.  Hence
every Logger returned by `Dial` for that priority has `facility = f << 3` and
`level = DefaultLogLevel = s`, a value in [0,7]. -/
theorem priority_round_trip (f s : Nat) (hf : f ≤ 23) (hs : s ≤ 7) :
    ¬ (encode f s < 0 ∨ encode f s > Int.lor LOG_LOCAL7 LOG_DEBUG) ∧
    Int.land (encode f s) facilityMask = facilityOf f ∧
    Int.land (encode f s) severityMask = (s : Int) ∧
    ∀ (env : Env) (tr tr1 : List Event) (network raddr tag : String) (l : Logger)
      (e : Option GoError),
      Dial env tr network raddr (encode f s) tag = (tr1, some l, e) →
        l.facility = facilityOf f ∧ l.level = (s : Int) ∧ l.DefaultLogLevel = (s : Int) ∧
        l.level = l.DefaultLogLevel ∧ 0 ≤ l.level ∧ l.level ≤ 7 := by
  have hF := land_encode_facility f s hf hs
  have hS := land_encode_severity f s hf hs
  refine ⟨?_, hF, hS, ?_⟩
  · rw [lor_local7_debug, encode_eq f s hf hs]
    unfold Priority at *
    omega
  · intro env tr tr1 network raddr tag l e h
    obtain ⟨h1, h2, h3, _, _⟩ := Dial_ok_fields env tr tr1 network raddr _ tag l e h
    rw [hF] at h1
    rw [hS] at h2 h3
    refine ⟨h1, h2, h3, by rw [h2, h3], ?_, ?_⟩
    · rw [h2]
      exact Int.ofNat_nonneg s
    · rw [h2]
      exact_mod_cast hs

/-- C1, the scenario of the spec: `Dial` with `LOG_LOCAL2 | LOG_INFO` in a world whose
local socket is reachable returns a Logger with facility `LOG_LOCAL2` (144) and
threshold Info (6). -/
theorem priority_round_trip_witness :
    encode 18 6 = Int.lor LOG_LOCAL2 LOG_INFO ∧
    ∃ tr1 l, Dial envUp [] "" "" (Int.lor LOG_LOCAL2 LOG_INFO) "my_app" = (tr1, some l, none) ∧
      l.facility = LOG_LOCAL2 ∧ l.facility = 144 ∧ l.level = LOG_INFO ∧
      l.DefaultLogLevel = LOG_INFO ∧ LOG_INFO = 6 := by
  have hd : Dial envUp [] "" "" (encode 18 6) "my_app" =
      ((Dial envUp [] "" "" (encode 18 6) "my_app").1,
        some ((Dial envUp [] "" "" (encode 18 6) "my_app").2.1.getD {}), none) := by
    decide
  have h := (priority_round_trip 18 6 (by decide) (by decide)).2.2.2 envUp [] _ "" "" "my_app" _ _ hd
  exact ⟨by decide, _, _, hd, h.1, h.1, h.2.1, h.2.2.1, rfl⟩

/-- C6. `Dial` returns no Logger and the error "slog: invalid priority" exactly when
`priority < 0` or `priority > LOG_LOCAL7|LOG_DEBUG` (191), and then makes no external
call at all.  For a priority in [0,191] the trace, the returned Logger and the
returned error are those of `connect` run on the freshly built Logger: the Logger
is returned exactly when `connect` reports no error.  `NewSyslog` is `Dial` with an
empty network and address. -/
theorem dial_priority_validation (env : Env) (tr : List Event) (network raddr : String)
    (priority : Priority) (tag : String) :
    Int.lor LOG_LOCAL7 LOG_DEBUG = 191 ∧
    ((Dial env tr network raddr priority tag).2 =
        (none, some (GoError.errorsNew "slog: invalid priority")) ↔
      (priority < 0 ∨ priority > 191)) ∧
    ((priority < 0 ∨ priority > 191) → (Dial env tr network raddr priority tag).1 = tr) ∧
    ((0 ≤ priority ∧ priority ≤ 191) →
      Dial env tr network raddr priority tag =
        ((connect env ⟨dialLogger env network raddr priority tag, tr⟩).1.trace,
          (if (connect env ⟨dialLogger env network raddr priority tag, tr⟩).2 = none
            then some (connect env ⟨dialLogger env network raddr priority tag, tr⟩).1.l
            else none),
          (connect env ⟨dialLogger env network raddr priority tag, tr⟩).2) ∧
        connectAttempts
          ((Dial env tr network raddr priority tag).1.drop tr.length) = 1) ∧
    NewSyslog env tr priority tag = Dial env tr "" "" priority tag := by
  refine ⟨lor_local7_debug, ⟨?_, ?_⟩, ?_, ?_, rfl⟩
  · intro h
    by_contra hp
    rw [Dial_valid _ _ _ _ _ _ hp] at h
    simp only [Prod.mk.injEq] at h
    obtain ⟨_, he⟩ := h
    have hopen := connectOpen_err env
      (connectClose env ⟨dialLogger env network raddr priority tag, tr⟩)
    unfold connect at he
    rw [hopen] at he
    unfold openError at he
    split at he
    · split at he <;> simp at he
    · split at he <;> simp at he
  · intro hp
    rw [Dial_invalid _ _ _ _ _ _ hp]
  · intro hp
    rw [Dial_invalid _ _ _ _ _ _ hp]
  · intro hp
    have hv : ¬ (priority < 0 ∨ priority > 191) := by
      unfold Priority at *
      omega
    refine ⟨Dial_valid _ _ _ _ _ _ hv, ?_⟩
    rw [Dial_valid _ _ _ _ _ _ hv]
    simp only [connect_trace, connectClose_trace]
    have hc : (dialLogger env network raddr priority tag).conn = none := rfl
    simp [hc, connectAttempts, openEvent_isConnect]

/-- C6, two concrete calls: priority 192 is refused without any external call, and
priority 191 is accepted and handed to `connect`. -/
theorem dial_priority_validation_witness :
    Dial envUp [] "" "" 192 "my_app" =
      ([], none, some (GoError.errorsNew "slog: invalid priority")) ∧
    (Dial envUp [] "" "" 191 "my_app").1 = [Event.unixSyslog] ∧
    (Dial envDown [] "" "" 191 "my_app").2 =
      (none, some (GoError.sys "Unix syslog delivery error")) := by
  have h := dial_priority_validation envUp [] "" "" 192 "my_app"
  have h1 := dial_priority_validation envUp [] "" "" 191 "my_app"
  have h2 := dial_priority_validation envDown [] "" "" 191 "my_app"
  refine ⟨?_, ?_, ?_⟩
  · exact Prod.ext (h.2.2.1 (by decide)) (h.2.1.2 (by decide))
  · rw [(h1.2.2.2.1 (by decide)).1]
    decide
  · rw [(h2.2.2.2.1 (by decide)).1]
    decide

/-! ## syslogWrite and syslogWriteAndRetry -/

theorem syslogWrite_eq (env : Env) (s : St) (p : Priority) (msg : String) (c : serverConn)
    (hc : s.l.conn = some c) :
    syslogWrite env s p msg =
      some (⟨s.l, s.trace ++ [Event.connWrite c.conn (wireLine env s c p msg)]⟩,
        (match env.connWrite s.trace c.conn (wireLine env s c p msg) with
          | none => ((msg.utf8ByteSize : Int), none)
          | some e => (0, some (GoError.sys e)))) := by
  unfold syslogWrite
  simp only [hc, netConn.writeString, wireLine]
  cases env.connWrite s.trace c.conn
    (c.line env s.trace p s.l.hostname s.l.tag msg (terminator msg)) <;> rfl

theorem syslogWrite_none (env : Env) (s : St) (p : Priority) (msg : String)
    (hc : s.l.conn = none) : syslogWrite env s p msg = none := by
  unfold syslogWrite
  simp only [hc]

theorem reconnectAndWrite_err (env : Env) (s : St) (pr : Priority) (msg : String)
    (err : GoError) (h : (connect env s).2 = some err) :
    reconnectAndWrite env s pr msg = some ((connect env s).1, 0, some err) := by
  unfold reconnectAndWrite
  cases hr : connect env s with
  | mk s1 e =>
    rw [hr] at h
    simp only at h
    subst h
    rfl

theorem reconnectAndWrite_ok (env : Env) (s : St) (pr : Priority) (msg : String)
    (h : (connect env s).2 = none) :
    reconnectAndWrite env s pr msg = syslogWrite env (connect env s).1 pr msg := by
  unfold reconnectAndWrite
  cases hr : connect env s with
  | mk s1 e =>
    rw [hr] at h
    simp only at h
    subst h
    rfl

theorem syslogWriteAndRetry_dead (env : Env) (s : St) (p : Priority) (msg : String)
    (hdead : s.l.conn = none ∨
      ∃ t n e, syslogWrite env s (wirePriority s.l p) msg = some (t, n, some e)) :
    syslogWriteAndRetry env s p msg =
      reconnectAndWrite env (beforeConnect env s p msg) (wirePriority s.l p) msg := by
  unfold syslogWriteAndRetry beforeConnect
  cases hc : s.l.conn with
  | none => rfl
  | some c =>
    rcases hdead with h | ⟨t, n, e, h⟩
    · rw [hc] at h
      cases h
    · have h2 := syslogWrite_eq env s (wirePriority s.l p) msg c hc
      rw [h2] at h
      simp only [h2]
      cases hw : env.connWrite s.trace c.conn (wireLine env s c (wirePriority s.l p) msg) with
      | none =>
        rw [hw] at h
        simp at h
      | some e2 => rfl

theorem beforeConnect_l (env : Env) (s : St) (p : Priority) (msg : String) :
    (beforeConnect env s p msg).l = s.l := by
  unfold beforeConnect
  cases s.l.conn <;> rfl

/-- The events `connect` adds: the close of the old connection, if any, then the
socket discovery or dial. -/
theorem connect_trace_eq (env : Env) (s : St) :
    (connect env s).1.trace =
      s.trace ++ ((match s.l.conn with
        | some c => [Event.connClose c.conn]
        | none => []) ++ [openEvent s.l]) := by
  rw [connect_trace, connectClose_trace, List.append_assoc]

theorem isConnect_connClose (c : NetHandle) : (Event.connClose c).isConnect = false := rfl

theorem isWrite_connClose (c : NetHandle) : (Event.connClose c).isWrite = false := rfl

theorem isConnect_connWrite (c : NetHandle) (d : String) :
    (Event.connWrite c d).isConnect = false := rfl

theorem isWrite_connWrite (c : NetHandle) (d : String) :
    (Event.connWrite c d).isWrite = true := rfl

theorem connect_counts (env : Env) (s : St) :
    connectAttempts (newEvents s (connect env s).1) = 1 ∧
    writeAttempts (newEvents s (connect env s).1) = 0 := by
  unfold newEvents
  rw [connect_trace_eq, List.drop_left]
  cases s.l.conn <;>
    simp [connectAttempts, writeAttempts, List.countP_cons, openEvent_isConnect,
      openEvent_isWrite, isConnect_connClose, isWrite_connClose]

theorem beforeConnect_trace (env : Env) (s : St) (p : Priority) (msg : String) :
    (beforeConnect env s p msg).trace =
      s.trace ++ (match s.l.conn with
        | some c => [Event.connWrite c.conn (wireLine env s c (wirePriority s.l p) msg)]
        | none => []) := by
  unfold beforeConnect
  cases s.l.conn <;> simp

theorem beforeConnect_counts (env : Env) (s : St) (p : Priority) (msg : String) :
    connectAttempts (newEvents s (beforeConnect env s p msg)) = 0 ∧
    writeAttempts (newEvents s (beforeConnect env s p msg)) ≤ 1 := by
  unfold newEvents
  rw [beforeConnect_trace, List.drop_left]
  cases s.l.conn <;>
    simp [connectAttempts, writeAttempts, List.countP_cons, isConnect_connWrite,
      isWrite_connWrite]

theorem newEvents_trans (s t u : St) (a b : List Event) (h1 : t.trace = s.trace ++ a)
    (h2 : u.trace = t.trace ++ b) : newEvents s u = newEvents s t ++ newEvents t u := by
  unfold newEvents
  rw [h2, List.drop_left, h1, List.drop_left, List.append_assoc, List.drop_left]

theorem syslogWriteAndRetry_happy (env : Env) (s : St) (p : Priority) (msg : String)
    (c : serverConn) (hc : s.l.conn = some c)
    (hw : env.connWrite s.trace c.conn (wireLine env s c (wirePriority s.l p) msg) = none) :
    syslogWriteAndRetry env s p msg =
      some (⟨s.l, s.trace ++ [Event.connWrite c.conn (wireLine env s c (wirePriority s.l p) msg)]⟩,
        (msg.utf8ByteSize : Int), none) := by
  unfold syslogWriteAndRetry
  simp only [hc, syslogWrite_eq env s (wirePriority s.l p) msg c hc, hw]

theorem syslogWriteAndRetry_split (env : Env) (s : St) (p : Priority) (msg : String) :
    (∃ c, s.l.conn = some c ∧
      env.connWrite s.trace c.conn (wireLine env s c (wirePriority s.l p) msg) = none) ∨
    (s.l.conn = none ∨
      ∃ t n e, syslogWrite env s (wirePriority s.l p) msg = some (t, n, some e)) := by
  cases hc : s.l.conn with
  | none => exact Or.inr (Or.inl rfl)
  | some c =>
    cases hw : env.connWrite s.trace c.conn (wireLine env s c (wirePriority s.l p) msg) with
    | none => exact Or.inl ⟨c, rfl, hw⟩
    | some e =>
      have h := syslogWrite_eq env s (wirePriority s.l p) msg c hc
      rw [hw] at h
      exact Or.inr (Or.inr ⟨_, _, _, h⟩)

theorem afterConnect_trace (env : Env) (s : St) (p : Priority) (msg : String) :
    ∃ evs, (afterConnect env s p msg).1.trace = (beforeConnect env s p msg).trace ++ evs :=
  ⟨_, connect_trace_eq env _⟩

theorem afterConnect_counts (env : Env) (s : St) (p : Priority) (msg : String) :
    connectAttempts (newEvents s (afterConnect env s p msg).1) = 1 ∧
    writeAttempts (newEvents s (afterConnect env s p msg).1) ≤ 1 ∧
    writeAttempts (newEvents (beforeConnect env s p msg) (afterConnect env s p msg).1) = 0 := by
  have h1 := beforeConnect_counts env s p msg
  have h2 := connect_counts env (beforeConnect env s p msg)
  have ht := newEvents_trans s (beforeConnect env s p msg) (afterConnect env s p msg).1 _ _
    (beforeConnect_trace env s p msg) (connect_trace_eq env _)
  unfold afterConnect at ht ⊢
  rw [ht]
  unfold connectAttempts writeAttempts at *
  rw [List.countP_append, List.countP_append]
  omega

/-- After a successful `connect`, the second write goes out on the new connection. -/
theorem secondWrite (env : Env) (s : St) (p : Priority) (msg : String)
    (hok : (afterConnect env s p msg).2 = none) :
    ∃ c t n e, (afterConnect env s p msg).1.l.conn = some c ∧
      syslogWrite env (afterConnect env s p msg).1 (wirePriority s.l p) msg = some (t, n, e) ∧
      t.trace = (afterConnect env s p msg).1.trace ++
        [Event.connWrite c.conn
          (wireLine env (afterConnect env s p msg).1 c (wirePriority s.l p) msg)] ∧
      connectAttempts (newEvents s t) = 1 ∧
      writeAttempts (newEvents s t) ≤ 2 ∧
      writeAttempts (newEvents (beforeConnect env s p msg) t) = 1 := by
  obtain ⟨c, hc⟩ := connect_conn_ok env _ hok
  have hw := syslogWrite_eq env (afterConnect env s p msg).1 (wirePriority s.l p) msg c hc
  obtain ⟨evs, hevs⟩ := afterConnect_trace env s p msg
  have hcnt := afterConnect_counts env s p msg
  refine ⟨c, _, _, _, hc, hw, rfl, ?_⟩
  have hb := beforeConnect_trace env s p msg
  have ht1 := newEvents_trans (beforeConnect env s p msg) (afterConnect env s p msg).1
    ⟨(afterConnect env s p msg).1.l, (afterConnect env s p msg).1.trace ++
        [Event.connWrite c.conn
          (wireLine env (afterConnect env s p msg).1 c (wirePriority s.l p) msg)]⟩ _ _ hevs rfl
  have ht2 := newEvents_trans s (afterConnect env s p msg).1
    ⟨(afterConnect env s p msg).1.l, (afterConnect env s p msg).1.trace ++
        [Event.connWrite c.conn
          (wireLine env (afterConnect env s p msg).1 c (wirePriority s.l p) msg)]⟩
    _ _ (by rw [hevs, hb, List.append_assoc]) rfl
  have hlast : ∀ (a : St) (e : Event), newEvents a ⟨a.l, a.trace ++ [e]⟩ = [e] := by
    intro a e
    unfold newEvents
    simp
  rw [hlast] at ht1 ht2
  rw [ht1, ht2]
  unfold connectAttempts writeAttempts at *
  simp only [List.countP_append, List.countP_cons, List.countP_nil, isConnect_connWrite,
    isWrite_connWrite, reduceIte, Bool.false_eq_true]
  omega

/-- Every call returns, and its trace extends the trace at the point where
`connect` would be entered; it makes at most one connection attempt and at most
two writes. -/
theorem syslogWriteAndRetry_bounds (env : Env) (s : St) (p : Priority) (msg : String) :
    ∃ t n e rest, syslogWriteAndRetry env s p msg = some (t, n, e) ∧
      t.trace = (beforeConnect env s p msg).trace ++ rest ∧
      connectAttempts (newEvents s t) ≤ 1 ∧ writeAttempts (newEvents s t) ≤ 2 := by
  rcases syslogWriteAndRetry_split env s p msg with ⟨c, hc, hw⟩ | hdead
  · refine ⟨_, _, _, [], syslogWriteAndRetry_happy env s p msg c hc hw, ?_, ?_, ?_⟩
    · rw [beforeConnect_trace, hc]
      simp
    · simp [newEvents, connectAttempts, List.countP_cons, isConnect_connWrite]
    · simp [newEvents, writeAttempts, List.countP_cons, isWrite_connWrite]
  · rw [syslogWriteAndRetry_dead env s p msg hdead]
    cases hr : (afterConnect env s p msg).2 with
    | some err =>
      have hcnt := afterConnect_counts env s p msg
      obtain ⟨evs, hevs⟩ := afterConnect_trace env s p msg
      refine ⟨_, _, _, evs, reconnectAndWrite_err env _ _ msg err hr, hevs, ?_, ?_⟩
      · exact le_of_eq hcnt.1
      · exact le_trans hcnt.2.1 (by decide)
    | none =>
      obtain ⟨c, t, n, e, _, hw, ht, h1, h2, _⟩ := secondWrite env s p msg hr
      obtain ⟨evs, hevs⟩ := afterConnect_trace env s p msg
      refine ⟨t, n, e, evs ++ [Event.connWrite c.conn
        (wireLine env (afterConnect env s p msg).1 c (wirePriority s.l p) msg)], ?_, ?_,
        le_of_eq h1, h2⟩
      · rw [reconnectAndWrite_ok env _ _ msg hr]
        exact hw
      · rw [ht, hevs, List.append_assoc]

/-- C3. When the Logger has no live connection, or the first write fails, the call
continues with `connect`, which is attempted exactly once.  If `connect` fails the call
returns `(0, that error)` and no write follows the connection attempt.  If `connect`
succeeds, exactly one more write is made, on the new connection, and the call returns
that write's outcome.  No call at all, in any state, makes more than one connection
attempt or more than two writes. -/
theorem write_and_retry_dead_connection (env : Env) (s : St) (p : Priority) (msg : String)
    (hdead : s.l.conn = none ∨
      ∃ t n e, syslogWrite env s (wirePriority s.l p) msg = some (t, n, some e)) :
    syslogWriteAndRetry env s p msg =
      reconnectAndWrite env (beforeConnect env s p msg) (wirePriority s.l p) msg ∧
    connectAttempts (newEvents s (afterConnect env s p msg).1) = 1 ∧
    (∀ err, (afterConnect env s p msg).2 = some err →
      syslogWriteAndRetry env s p msg = some ((afterConnect env s p msg).1, 0, some err) ∧
      writeAttempts
        (newEvents (beforeConnect env s p msg) (afterConnect env s p msg).1) = 0) ∧
    ((afterConnect env s p msg).2 = none →
      ∃ c t n e, (afterConnect env s p msg).1.l.conn = some c ∧
        syslogWrite env (afterConnect env s p msg).1 (wirePriority s.l p) msg
          = some (t, n, e) ∧
        syslogWriteAndRetry env s p msg = some (t, n, e) ∧
        t.trace = (afterConnect env s p msg).1.trace ++
          [Event.connWrite c.conn
            (wireLine env (afterConnect env s p msg).1 c (wirePriority s.l p) msg)] ∧
        connectAttempts (newEvents s t) = 1 ∧
        writeAttempts (newEvents (beforeConnect env s p msg) t) = 1) ∧
    (∀ (s2 : St) (p2 : Priority) (msg2 : String), ∃ t n e,
      syslogWriteAndRetry env s2 p2 msg2 = some (t, n, e) ∧
      connectAttempts (newEvents s2 t) ≤ 1 ∧ writeAttempts (newEvents s2 t) ≤ 2) := by
  have hd := syslogWriteAndRetry_dead env s p msg hdead
  have hcnt := afterConnect_counts env s p msg
  refine ⟨hd, hcnt.1, ?_, ?_, ?_⟩
  · intro err herr
    refine ⟨?_, hcnt.2.2⟩
    rw [hd]
    exact reconnectAndWrite_err env _ _ msg err herr
  · intro hok
    obtain ⟨c, t, n, e, hc, hw, ht, h1, _, h3⟩ := secondWrite env s p msg hok
    refine ⟨c, t, n, e, hc, hw, ?_, ht, h1, h3⟩
    rw [hd, reconnectAndWrite_ok env _ _ msg hok]
    exact hw
  · intro s2 p2 msg2
    obtain ⟨t, n, e, _, h, _, h1, h2⟩ := syslogWriteAndRetry_bounds env s2 p2 msg2
    exact ⟨t, n, e, h, h1, h2⟩

/-- C3 on concrete runs.  A live connection whose first write fails: one connection
attempt, two writes, and the second write's outcome `(18, nil)` is returned.  A Logger
without connection in a world without syslog socket: the error of `connect` is
returned with 0 and no write is made. -/
theorem write_and_retry_dead_connection_witness :
    (syslogWriteAndRetry envFlaky stLive 4 "warning conditions").map
        (fun r => (r.2, connectAttempts r.1.trace, writeAttempts r.1.trace)) =
      some ((18, none), 1, 2) ∧
    (syslogWriteAndRetry envDown stFresh 4 "warning conditions").map
        (fun r => (r.2, r.1.trace)) =
      some ((0, some (GoError.sys "Unix syslog delivery error")), [Event.unixSyslog]) := by
  have hdead : stLive.l.conn = none ∨ ∃ t n e,
      syslogWrite envFlaky stLive (wirePriority stLive.l 4) "warning conditions" =
        some (t, n, some e) := Or.inr ⟨_, _, _, rfl⟩
  have h := write_and_retry_dead_connection envFlaky stLive 4 "warning conditions" hdead
  have h2 := write_and_retry_dead_connection envDown stFresh 4 "warning conditions"
    (Or.inl rfl)
  refine ⟨?_, ?_⟩
  · rw [h.1]
    decide
  · rw [(h2.2.2.1 (GoError.sys "Unix syslog delivery error") (by decide)).1]
    decide

/-! ## Wire format -/

theorem line_local (env : Env) (tr : List Event) (c : NetHandle) (p : Priority)
    (h t m nl : String) :
    netConn.line env tr ⟨true, c⟩ p h t m nl =
      "<" ++ toString p ++ ">" ++ env.timeNowFormat tr TimeLayout.Stamp ++ " " ++ t ++ "[" ++
        toString env.getpid ++ "]: " ++ m ++ nl := by
  apply String.ext
  simp [netConn.line, Sprintf, sprintfAux, formatArg]

theorem line_remote (env : Env) (tr : List Event) (c : NetHandle) (p : Priority)
    (h t m nl : String) :
    netConn.line env tr ⟨false, c⟩ p h t m nl =
      "<" ++ toString p ++ ">" ++ env.timeNowFormat tr TimeLayout.RFC3339 ++ " " ++ h ++ " " ++
        t ++ "[" ++ toString env.getpid ++ "]: " ++ m ++ nl := by
  apply String.ext
  simp [netConn.line, Sprintf, sprintfAux, formatArg]

/-- Every formatted line is some header followed by the message and the terminator. -/
theorem line_ends (env : Env) (tr : List Event) (n : netConn) (p : Priority)
    (h t m nl : String) :
    ∃ header : String, header.data ≠ [] ∧ n.line env tr p h t m nl = header ++ m ++ nl := by
  obtain ⟨loc, c⟩ := n
  cases loc
  · refine ⟨"<" ++ toString p ++ ">" ++ env.timeNowFormat tr TimeLayout.RFC3339 ++ " " ++ h ++
      " " ++ t ++ "[" ++ toString env.getpid ++ "]: ", ?_, line_remote env tr c p h t m nl⟩
    simp
  · refine ⟨"<" ++ toString p ++ ">" ++ env.timeNowFormat tr TimeLayout.Stamp ++ " " ++ t ++
      "[" ++ toString env.getpid ++ "]: ", ?_, line_local env tr c p h t m nl⟩
    simp

/-- C5. With `local = true`, `writeString` writes exactly
`<p>` timestamp, a space, the tag, `[pid]: `, the message and the terminator, the
message and terminator adjacent as in the format `%s%s`; the hostname does not
occur, so any two hostnames give the same output.  With `local = false` it writes
`<p>` timestamp, a space, the hostname, a space, the tag, `[pid]: `, the message and
the terminator.  In both cases the text is written by one write on the connection
and the write's error is returned. -/
theorem writeString_wire_format (env : Env) (tr : List Event) (c : NetHandle) (p : Priority)
    (h t m nl : String) :
    (netConn.writeString env tr ⟨true, c⟩ p h t m nl =
      (tr ++ [Event.connWrite c
          ("<" ++ toString p ++ ">" ++ env.timeNowFormat tr TimeLayout.Stamp ++ " " ++ t ++ "[" ++
            toString env.getpid ++ "]: " ++ m ++ nl)],
        (env.connWrite tr c
          ("<" ++ toString p ++ ">" ++ env.timeNowFormat tr TimeLayout.Stamp ++ " " ++ t ++ "[" ++
            toString env.getpid ++ "]: " ++ m ++ nl)).map GoError.sys)) ∧
    (∀ h2 : String, netConn.writeString env tr ⟨true, c⟩ p h2 t m nl =
      netConn.writeString env tr ⟨true, c⟩ p h t m nl) ∧
    (netConn.writeString env tr ⟨false, c⟩ p h t m nl =
      (tr ++ [Event.connWrite c
          ("<" ++ toString p ++ ">" ++ env.timeNowFormat tr TimeLayout.RFC3339 ++ " " ++ h ++
            " " ++ t ++ "[" ++ toString env.getpid ++ "]: " ++ m ++ nl)],
        (env.connWrite tr c
          ("<" ++ toString p ++ ">" ++ env.timeNowFormat tr TimeLayout.RFC3339 ++ " " ++ h ++
            " " ++ t ++ "[" ++ toString env.getpid ++ "]: " ++ m ++ nl)).map GoError.sys)) := by
  refine ⟨?_, ?_, ?_⟩
  · unfold netConn.writeString
    rw [line_local]
  · intro h2
    unfold netConn.writeString
    rw [line_local, line_local]
  · unfold netConn.writeString
    rw [line_remote]

/-! ## Newline termination -/

theorem HasSuffix_iff (s t : String) : HasSuffix s t = true ↔ List.IsSuffix t.data s.data := by
  unfold HasSuffix
  exact List.isSuffixOf_iff_suffix

theorem terminator_of_suffix (msg : String) (h : HasSuffix msg "\n" = true) :
    terminator msg = "" := by
  unfold terminator
  simp [h]

theorem terminator_of_not_suffix (msg : String) (h : HasSuffix msg "\n" = false) :
    terminator msg = "\n" := by
  unfold terminator
  simp [h]

theorem HasSuffix_terminator (msg : String) : HasSuffix (msg ++ terminator msg) "\n" = true := by
  cases h : HasSuffix msg "\n" with
  | true =>
    rw [terminator_of_suffix msg h, String.append_empty]
    exact h
  | false =>
    rw [terminator_of_not_suffix msg h, HasSuffix_iff]
    exact ⟨msg.data, by simp⟩

theorem HasSuffix_append_left (a b t : String) (h : HasSuffix b t = true) :
    HasSuffix (a ++ b) t = true := by
  rw [HasSuffix_iff] at h ⊢
  obtain ⟨pre, hpre⟩ := h
  exact ⟨a.data ++ pre, by simp [← hpre]⟩

/-- C4. `syslogWrite` hands the backend the terminator "\n" exactly when the message
does not already end in "\n", and "" exactly when it does.  A message without
trailing newline is therefore followed by exactly one added newline, a message
with one is written unchanged, and both the text `msg ++ nl` and the whole line
written on the connection end in a newline. -/
theorem newline_termination (env : Env) (s : St) (p : Priority) (msg : String)
    (c : serverConn) (hc : s.l.conn = some c) :
    (∃ t n e, syslogWrite env s p msg = some (t, n, e) ∧
      t.trace = s.trace ++
        [Event.connWrite c.conn
          (c.line env s.trace p s.l.hostname s.l.tag msg (terminator msg))]) ∧
    (terminator msg = "\n" ↔ HasSuffix msg "\n" = false) ∧
    (terminator msg = "" ↔ HasSuffix msg "\n" = true) ∧
    (HasSuffix msg "\n" = false →
      msg ++ terminator msg = msg ++ "\n" ∧
      (msg ++ terminator msg).length = msg.length + 1) ∧
    (HasSuffix msg "\n" = true → msg ++ terminator msg = msg) ∧
    HasSuffix (msg ++ terminator msg) "\n" = true ∧
    (∃ header : String,
      c.line env s.trace p s.l.hostname s.l.tag msg (terminator msg) =
        header ++ (msg ++ terminator msg)) ∧
    HasSuffix (c.line env s.trace p s.l.hostname s.l.tag msg (terminator msg)) "\n" = true := by
  obtain ⟨header, _, hline⟩ :=
    line_ends env s.trace c p s.l.hostname s.l.tag msg (terminator msg)
  refine ⟨⟨_, _, _, syslogWrite_eq env s p msg c hc, rfl⟩, ?_, ?_, ?_, ?_,
    HasSuffix_terminator msg, ⟨header, by rw [hline, String.append_assoc]⟩, ?_⟩
  · constructor
    · intro h
      cases hs : HasSuffix msg "\n" with
      | false => rfl
      | true =>
        rw [terminator_of_suffix msg hs] at h
        exact absurd h (by decide)
    · exact terminator_of_not_suffix msg
  · constructor
    · intro h
      cases hs : HasSuffix msg "\n" with
      | true => rfl
      | false =>
        rw [terminator_of_not_suffix msg hs] at h
        exact absurd h (by decide)
    · exact terminator_of_suffix msg
  · intro h
    rw [terminator_of_not_suffix msg h]
    exact ⟨rfl, by rw [String.length_append]; rfl⟩
  · intro h
    rw [terminator_of_suffix msg h, String.append_empty]
  · rw [hline, String.append_assoc]
    exact HasSuffix_append_left _ _ _ (HasSuffix_terminator msg)

/-- C4 on two messages: "informational" is written with one added newline,
"informational\n" is written as it is. -/
theorem newline_termination_witness :
    (syslogWrite envUp stLive 150 "informational").map (fun r => r.1.trace) =
      some [Event.connWrite 1 "<150>Nov  1 21:16:00 my_app[4242]: informational\n"] ∧
    (syslogWrite envUp stLive 150 "informational\n").map (fun r => r.1.trace) =
      some [Event.connWrite 1 "<150>Nov  1 21:16:00 my_app[4242]: informational\n"] := by
  obtain ⟨⟨t, n, e, h1, h2⟩, _⟩ :=
    newline_termination envUp stLive 150 "informational" ⟨true, 1⟩ rfl
  obtain ⟨⟨t2, n2, e2, h3, h4⟩, _⟩ :=
    newline_termination envUp stLive 150 "informational\n" ⟨true, 1⟩ rfl
  rw [h1, h3]
  simp only [Option.map_some', h2, h4]
  decide

/-! ## Happy path -/

theorem utf8ByteSize_go_append (a b : List Char) :
    String.utf8ByteSize.go (a ++ b) = String.utf8ByteSize.go a + String.utf8ByteSize.go b := by
  induction a with
  | nil => simp [String.utf8ByteSize.go]
  | cons c cs ih =>
    show String.utf8ByteSize.go (c :: (cs ++ b)) = _
    simp only [String.utf8ByteSize.go, ih]
    omega

theorem utf8ByteSize_append (a b : String) :
    (a ++ b).utf8ByteSize = a.utf8ByteSize + b.utf8ByteSize := by
  obtain ⟨a⟩ := a
  obtain ⟨b⟩ := b
  exact utf8ByteSize_go_append a b

theorem utf8ByteSize_pos (a : String) (h : a.data ≠ []) : 0 < a.utf8ByteSize := by
  obtain ⟨a⟩ := a
  cases a with
  | nil => exact absurd rfl h
  | cons c cs =>
    have hc := Char.utf8Size_pos c
    show 0 < String.utf8ByteSize.go (c :: cs)
    simp only [String.utf8ByteSize.go]
    omega

/-- C8. With a live connection whose first write succeeds, the call returns that
write's result at once: `(len(msg), nil)`, where `len(msg)` is the byte length of the
message and is smaller than the byte length of the line written.  The only external
call is that one write: no connection attempt, no second write; the Logger, and its
connection, are unchanged. -/
theorem write_and_retry_happy_path (env : Env) (s t : St) (p : Priority) (msg : String)
    (c : serverConn) (n : Int) (hc : s.l.conn = some c)
    (hfirst : syslogWrite env s (wirePriority s.l p) msg = some (t, n, none)) :
    syslogWriteAndRetry env s p msg = some (t, (msg.utf8ByteSize : Int), none) ∧
    n = (msg.utf8ByteSize : Int) ∧
    t.l = s.l ∧ t.l.conn = some c ∧
    newEvents s t = [Event.connWrite c.conn (wireLine env s c (wirePriority s.l p) msg)] ∧
    connectAttempts (newEvents s t) = 0 ∧ writeAttempts (newEvents s t) = 1 ∧
    msg.utf8ByteSize < (wireLine env s c (wirePriority s.l p) msg).utf8ByteSize := by
  have hw := syslogWrite_eq env s (wirePriority s.l p) msg c hc
  rw [hw] at hfirst
  cases hres : env.connWrite s.trace c.conn (wireLine env s c (wirePriority s.l p) msg) with
  | some e =>
    rw [hres] at hfirst
    simp at hfirst
  | none =>
    rw [hres] at hfirst
    simp only [Option.some.injEq, Prod.mk.injEq, and_true] at hfirst
    obtain ⟨ht, hn⟩ := hfirst
    subst ht
    refine ⟨syslogWriteAndRetry_happy env s p msg c hc hres, hn.symm, rfl, hc, ?_, ?_, ?_, ?_⟩
    · simp [newEvents]
    · simp [newEvents, connectAttempts, List.countP_cons, isConnect_connWrite]
    · simp [newEvents, writeAttempts, List.countP_cons, isWrite_connWrite]
    · obtain ⟨header, hne, hline⟩ := line_ends env s.trace c (wirePriority s.l p)
        s.l.hostname s.l.tag msg (terminator msg)
      unfold wireLine
      rw [hline, utf8ByteSize_append, utf8ByteSize_append]
      have := utf8ByteSize_pos header hne
      omega

/-- C8 on a concrete call: a Warning on the live local connection returns
`(18, nil)`, the length of "warning conditions", after a single write. -/
theorem write_and_retry_happy_path_witness :
    syslogWriteAndRetry envUp stLive 4 "warning conditions" =
      some (⟨stLive.l,
        [Event.connWrite 1 "<148>Nov  1 21:16:00 my_app[4242]: warning conditions\n"]⟩,
        18, none) :=
  (write_and_retry_happy_path envUp stLive
    ⟨stLive.l, [Event.connWrite 1 "<148>Nov  1 21:16:00 my_app[4242]: warning conditions\n"]⟩
    4 "warning conditions" ⟨true, 1⟩ 18 rfl (by decide)).1

/-! ## Failed reconnect -/

theorem beforeConnect_of_none (env : Env) (s : St) (p : Priority) (msg : String)
    (hc : s.l.conn = none) : beforeConnect env s p msg = s := by
  unfold beforeConnect
  rw [hc]

/-- On the reconnect path the trace of the result starts with the trace of `connect`. -/
theorem syslogWriteAndRetry_dead_shape (env : Env) (s : St) (p : Priority) (msg : String)
    (hdead : s.l.conn = none ∨
      ∃ t n e, syslogWrite env s (wirePriority s.l p) msg = some (t, n, some e)) :
    ∃ t n e rest, syslogWriteAndRetry env s p msg = some (t, n, e) ∧
      t.trace = (afterConnect env s p msg).1.trace ++ rest ∧
      connectAttempts (newEvents s t) = 1 := by
  rw [syslogWriteAndRetry_dead env s p msg hdead]
  cases hr : (afterConnect env s p msg).2 with
  | some err =>
    exact ⟨_, _, _, [], reconnectAndWrite_err env _ _ msg err hr,
      (List.append_nil _).symm, (afterConnect_counts env s p msg).1⟩
  | none =>
    obtain ⟨c, t, n, e, _, hw, ht, h1, _, _⟩ := secondWrite env s p msg hr
    refine ⟨t, n, e, _, ?_, ht, h1⟩
    rw [reconnectAndWrite_ok env _ _ msg hr]
    exact hw

/-- C10. When `syslogWriteAndRetry` returns the error of `connect`, the Logger it
leaves behind holds no connection, whatever it held before.  The next call therefore
makes no first write: it is the reconnect path run from that state, and the first
external call it makes is the socket discovery or dial of a fresh `connect`. -/
theorem failed_reconnect_leaves_no_connection (env : Env) (s : St) (p : Priority)
    (msg : String) (err : GoError)
    (hdead : s.l.conn = none ∨
      ∃ t n e, syslogWrite env s (wirePriority s.l p) msg = some (t, n, some e))
    (herr : (afterConnect env s p msg).2 = some err) :
    ∃ t, syslogWriteAndRetry env s p msg = some (t, 0, some err) ∧
      t.l.conn = none ∧
      ∀ (p2 : Priority) (msg2 : String),
        syslogWriteAndRetry env t p2 msg2 =
          reconnectAndWrite env t (wirePriority t.l p2) msg2 ∧
        ∃ t2 n2 e2 rest, syslogWriteAndRetry env t p2 msg2 = some (t2, n2, e2) ∧
          t2.trace = t.trace ++ openEvent t.l :: rest ∧
          connectAttempts (newEvents t t2) = 1 := by
  have hconn : (afterConnect env s p msg).1.l.conn = none :=
    connect_conn_err env _ (by unfold afterConnect at herr; rw [herr]; simp)
  refine ⟨(afterConnect env s p msg).1, ?_, hconn, ?_⟩
  · rw [syslogWriteAndRetry_dead env s p msg hdead]
    exact reconnectAndWrite_err env _ _ msg err herr
  · intro p2 msg2
    have hd2 := syslogWriteAndRetry_dead env (afterConnect env s p msg).1 p2 msg2
      (Or.inl hconn)
    rw [beforeConnect_of_none env _ p2 msg2 hconn] at hd2
    refine ⟨hd2, ?_⟩
    obtain ⟨t2, n2, e2, rest, h1, h2, h3⟩ :=
      syslogWriteAndRetry_dead_shape env (afterConnect env s p msg).1 p2 msg2 (Or.inl hconn)
    refine ⟨t2, n2, e2, rest, h1, ?_, h3⟩
    have hb : (afterConnect env (afterConnect env s p msg).1 p2 msg2).1.trace =
        (afterConnect env s p msg).1.trace ++
          [openEvent (afterConnect env s p msg).1.l] := by
      show (connect env (beforeConnect env (afterConnect env s p msg).1 p2 msg2)).1.trace = _
      rw [beforeConnect_of_none env _ p2 msg2 hconn, connect_trace_eq, hconn]
      rfl
    rw [h2, hb, List.append_assoc]
    rfl

/-- C10 on a concrete run: a live connection in a world that has gone down.  The first
write fails, `connect` fails, the Logger is left without connection, and the next call
makes one socket discovery and no write. -/
theorem failed_reconnect_leaves_no_connection_witness :
    ∃ t, syslogWriteAndRetry envDown stLive 4 "warning conditions" =
        some (t, 0, some (GoError.sys "Unix syslog delivery error")) ∧
      t.l.conn = none ∧
      (syslogWriteAndRetry envDown t 6 "informational").map (fun r => newEvents t r.1) =
        some [Event.unixSyslog] := by
  have hdead : stLive.l.conn = none ∨ ∃ t n e,
      syslogWrite envDown stLive (wirePriority stLive.l 4) "warning conditions" =
        some (t, n, some e) := Or.inr ⟨_, _, _, rfl⟩
  obtain ⟨t, h1, h2, h3⟩ := failed_reconnect_leaves_no_connection envDown stLive 4
    "warning conditions" (GoError.sys "Unix syslog delivery error") hdead (by decide)
  refine ⟨t, h1, h2, ?_⟩
  have ht : t = (afterConnect envDown stLive 4 "warning conditions").1 := by
    have h4 := syslogWriteAndRetry_dead envDown stLive 4 "warning conditions" hdead
    rw [h4, reconnectAndWrite_err envDown _ _ _ (GoError.sys "Unix syslog delivery error")
      (by decide)] at h1
    simp only [Option.some.injEq, Prod.mk.injEq, and_true] at h1
    exact h1.symm
  subst ht
  decide

/-! ## Wire priority -/

theorem wirePriority_eq (l : Logger) (f p : Nat) (hf : f ≤ 23) (hp : p ≤ 7)
    (hfac : l.facility = facilityOf f) : wirePriority l (p : Int) = (f : Int) * 8 + p := by
  unfold wirePriority
  rw [hfac]
  interval_cases f <;> interval_cases p <;> rfl

theorem wirePriority_decode (f p : Nat) (hf : f ≤ 23) (hp : p ≤ 7) :
    Int.land ((f : Int) * 8 + p) facilityMask = facilityOf f ∧
    Int.land ((f : Int) * 8 + p) severityMask = (p : Int) := by
  interval_cases f <;> interval_cases p <;> exact ⟨rfl, rfl⟩

theorem line_starts (env : Env) (tr : List Event) (n : netConn) (p : Priority)
    (h t m nl : String) :
    ∃ tail : String, n.line env tr p h t m nl = "<" ++ toString p ++ ">" ++ tail := by
  obtain ⟨loc, c⟩ := n
  cases loc
  · refine ⟨env.timeNowFormat tr TimeLayout.RFC3339 ++ " " ++ h ++ " " ++ t ++ "[" ++
      toString env.getpid ++ "]: " ++ m ++ nl, ?_⟩
    rw [line_remote]
    simp only [String.append_assoc]
  · refine ⟨env.timeNowFormat tr TimeLayout.Stamp ++ " " ++ t ++ "[" ++
      toString env.getpid ++ "]: " ++ m ++ nl, ?_⟩
    rw [line_local]
    simp only [String.append_assoc]

/-- C2. For a Logger returned by `Dial` for the priority `(f << 3) | s` with `f` in
[0,23] and `s` in [0,7], and a severity argument `p` in [0,7], the priority that
`syslogWriteAndRetry` computes is `f * 8 + p`.  It lies in [0,191] and decodes back to
`(f, p)`, by the masks and by division by 8.  The first external call of
`syslogWriteAndRetry` on that Logger is a write of a line that starts with
`<f*8+p>`. -/
theorem wire_priority (env : Env) (tr tr1 : List Event) (network raddr tag : String)
    (f s p : Nat) (hf : f ≤ 23) (hs : s ≤ 7) (hp : p ≤ 7) (l : Logger)
    (e : Option GoError)
    (h : Dial env tr network raddr (encode f s) tag = (tr1, some l, e)) :
    wirePriority l (p : Int) = (f : Int) * 8 + p ∧
    0 ≤ wirePriority l (p : Int) ∧ wirePriority l (p : Int) ≤ 191 ∧
    Int.land (wirePriority l (p : Int)) facilityMask = facilityOf f ∧
    Int.land (wirePriority l (p : Int)) severityMask = (p : Int) ∧
    wirePriority l (p : Int) / 8 = (f : Int) ∧ wirePriority l (p : Int) % 8 = (p : Int) ∧
    ∀ (tr2 : List Event) (msg : String), ∃ c t n e2 tail rest,
      l.conn = some c ∧
      syslogWriteAndRetry env ⟨l, tr2⟩ (p : Int) msg = some (t, n, e2) ∧
      t.trace = tr2 ++
        Event.connWrite c.conn ("<" ++ toString ((f : Int) * 8 + p) ++ ">" ++ tail) :: rest := by
  obtain ⟨hfac, _, _, ⟨c, hc⟩, _⟩ := Dial_ok_fields env tr tr1 network raddr _ tag l e h
  rw [land_encode_facility f s hf hs] at hfac
  have hw := wirePriority_eq l f p hf hp hfac
  have hdec := wirePriority_decode f p hf hp
  rw [hw]
  refine ⟨rfl, ?_, ?_, hdec.1, hdec.2, ?_, ?_, ?_⟩
  · unfold Priority
    omega
  · unfold Priority
    omega
  · clear hdec hw
    unfold Priority
    omega
  · clear hdec hw
    unfold Priority
    omega
  · intro tr2 msg
    obtain ⟨t, n, e2, rest, h1, h2, _⟩ := syslogWriteAndRetry_bounds env ⟨l, tr2⟩ (p : Int) msg
    obtain ⟨tail, htail⟩ := line_starts env tr2 c ((f : Int) * 8 + p) l.hostname l.tag msg
      (terminator msg)
    refine ⟨c, t, n, e2, tail, rest, hc, h1, ?_⟩
    rw [h2, beforeConnect_trace]
    simp only [hc, hw, wireLine, htail, List.append_assoc, List.singleton_append]

/-- C2, the scenario of the spec: on the Logger that `Dial` returns for
`LOG_LOCAL2|LOG_INFO`, a Warning (4) call is written with priority 18 * 8 + 4 = 148. -/
theorem wire_priority_witness :
    ∃ l, (Dial envUp [] "" "" (encode 18 6) "my_app").2.1 = some l ∧
      wirePriority l 4 = 148 ∧
      (syslogWriteAndRetry envUp ⟨l, []⟩ LOG_WARNING "warning conditions").map
          (fun r => r.1.trace) =
        some [Event.connWrite 1 "<148>Nov  1 21:16:00 my_app[4242]: warning conditions\n"] := by
  have hd : Dial envUp [] "" "" (encode 18 6) "my_app" =
      ((Dial envUp [] "" "" (encode 18 6) "my_app").1,
        some ((Dial envUp [] "" "" (encode 18 6) "my_app").2.1.getD {}), none) := by
    decide
  have h := wire_priority envUp [] _ "" "" "my_app" 18 6 4 (by decide) (by decide) (by decide)
    _ _ hd
  exact ⟨_, by decide, h.1, by decide⟩

/-! ## connect replaces the connection -/

theorem connectClose_of_none (env : Env) (s : St) (hc : s.l.conn = none) :
    connectClose env s = s := by
  unfold connectClose
  rw [hc]

theorem connectClose_indep (env : Env) (g : List Event → NetHandle → Option String) (s : St) :
    connectClose { env with connClose := g } s = connectClose env s := by
  unfold connectClose
  cases s.l.conn <;> rfl

theorem connectOpen_indep (env : Env) (g : List Event → NetHandle → Option String) (s : St) :
    connectOpen { env with connClose := g } s = connectOpen env s := rfl

/-- The Logger after `connect`, field by field: on the local branch `conn` is
whatever `unixSyslog` returned and an empty hostname becomes "localhost"; on the
dial branch a successful dial installs `netConn{conn: c}` and fills an empty
hostname from the local address, a failed dial leaves `conn` nil. -/
theorem connect_l (env : Env) (s : St) :
    (connect env s).1.l =
      if s.l.network = "" then
        match env.unixSyslog (connectClose env s).trace with
        | Except.ok c =>
          { s.l with
            conn := some c
            hostname := if s.l.hostname = "" then "localhost" else s.l.hostname }
        | Except.error _ =>
          { s.l with
            conn := none
            hostname := if s.l.hostname = "" then "localhost" else s.l.hostname }
      else
        match env.netDial (connectClose env s).trace s.l.network s.l.raddr with
        | Except.ok c =>
          { s.l with
            conn := some { local_ := false, conn := c }
            hostname := if s.l.hostname = "" then env.localAddr c else s.l.hostname }
        | Except.error _ => { s.l with conn := none } := by
  have hl := connectClose_l env s
  unfold connect connectOpen
  rw [hl]
  by_cases hn : s.l.network = ""
  · simp only [hn, if_true]
    cases env.unixSyslog (connectClose env s).trace <;> rfl
  · simp only [hn, if_false]
    cases env.netDial (connectClose env s).trace s.l.network s.l.raddr <;> rfl

theorem connect_conn_unix (env : Env) (s : St) (c : serverConn) (hn : s.l.network = "")
    (h : env.unixSyslog (connectClose env s).trace = Except.ok c) :
    (connect env s).1.l.conn = some c := by
  rw [connect_l, if_pos hn, h]

theorem connect_conn_dial (env : Env) (s : St) (c : NetHandle) (hn : s.l.network ≠ "")
    (h : env.netDial (connectClose env s).trace s.l.network s.l.raddr = Except.ok c) :
    (connect env s).1.l.conn = some { local_ := false, conn := c } := by
  rw [connect_l, if_neg hn, h]

/-- C9. `connect` first closes and clears an open connection, and only then, in a
state whose `conn` is nil, makes its one socket discovery or dial: in the trace the
close of the old connection comes right before it.  The close's error is thrown
away: replacing the close oracle by any other leaves the whole outcome of `connect`
unchanged.  The error returned is exactly that of the socket discovery (empty
network) or of the dial (otherwise), nil on success.  Afterwards the Logger holds the
newly opened connection when there was no error and none when there was: on the
local branch `conn` is exactly the connection `unixSyslog` returned, on the dial branch
it is exactly `netConn{conn: c}` for the `c` that `net.Dial` returned, and in every case
it is nil or a connection obtained by this call's discovery or dial, never the
connection held before the call unless the outside world handed that one back.  All
other fields of the Logger are as before, except that an empty hostname is filled
in. -/
theorem connect_replaces (env : Env) (s : St) :
    connect env s = connectOpen env (connectClose env s) ∧
    (connectClose env s).l.conn = none ∧
    (∀ c, s.l.conn = some c →
      (connectClose env s).trace = s.trace ++ [Event.connClose c.conn] ∧
      (connect env s).1.trace = s.trace ++ [Event.connClose c.conn, openEvent s.l]) ∧
    (s.l.conn = none →
      connectClose env s = s ∧ (connect env s).1.trace = s.trace ++ [openEvent s.l]) ∧
    (∀ g : List Event → NetHandle → Option String,
      connect { env with connClose := g } s = connect env s) ∧
    (s.l.network = "" →
      (connect env s).2 =
        match env.unixSyslog (connectClose env s).trace with
        | Except.ok _ => none
        | Except.error e => some (GoError.sys e)) ∧
    (s.l.network ≠ "" →
      (connect env s).2 =
        match env.netDial (connectClose env s).trace s.l.network s.l.raddr with
        | Except.ok _ => none
        | Except.error e => some (GoError.sys e)) ∧
    ((connect env s).2 = none → ∃ c, (connect env s).1.l.conn = some c) ∧
    ((connect env s).2 ≠ none → (connect env s).1.l.conn = none) ∧
    connectAttempts (newEvents s (connect env s).1) = 1 ∧
    (∀ c, s.l.network = "" →
      env.unixSyslog (connectClose env s).trace = Except.ok c →
        (connect env s).2 = none ∧ (connect env s).1.l.conn = some c) ∧
    (∀ c, s.l.network ≠ "" →
      env.netDial (connectClose env s).trace s.l.network s.l.raddr = Except.ok c →
        (connect env s).2 = none ∧
        (connect env s).1.l.conn = some { local_ := false, conn := c }) ∧
    (∀ c, (connect env s).1.l.conn = some c →
      env.unixSyslog (connectClose env s).trace = Except.ok c ∨
      ∃ h, env.netDial (connectClose env s).trace s.l.network s.l.raddr = Except.ok h ∧
        c = { local_ := false, conn := h }) ∧
    (connect env s).1.l =
      (if s.l.network = "" then
        match env.unixSyslog (connectClose env s).trace with
        | Except.ok c =>
          { s.l with
            conn := some c
            hostname := if s.l.hostname = "" then "localhost" else s.l.hostname }
        | Except.error _ =>
          { s.l with
            conn := none
            hostname := if s.l.hostname = "" then "localhost" else s.l.hostname }
      else
        match env.netDial (connectClose env s).trace s.l.network s.l.raddr with
        | Except.ok c =>
          { s.l with
            conn := some { local_ := false, conn := c }
            hostname := if s.l.hostname = "" then env.localAddr c else s.l.hostname }
        | Except.error _ => { s.l with conn := none }) := by
  have herr : (connect env s).2 = openError env (connectClose env s) :=
    connectOpen_err env _
  have hnet : (connectClose env s).l.network = s.l.network := by rw [connectClose_l]
  have hraddr : (connectClose env s).l.raddr = s.l.raddr := by rw [connectClose_l]
  refine ⟨rfl, by rw [connectClose_l], ?_, ?_, ?_, ?_, ?_, connect_conn_ok env s,
    connect_conn_err env s, (connect_counts env s).1, ?_, ?_, ?_, connect_l env s⟩
  rotate_left 5
  · intro c hn hu
    refine ⟨?_, connect_conn_unix env s c hn hu⟩
    rw [herr]
    unfold openError
    rw [hnet, if_pos hn, hu]
  · intro c hn hd
    refine ⟨?_, connect_conn_dial env s c hn hd⟩
    rw [herr]
    unfold openError
    rw [hnet, hraddr, if_neg hn, hd]
  · intro c hc
    rw [connect_l] at hc
    by_cases hn : s.l.network = ""
    · rw [if_pos hn] at hc
      cases hu : env.unixSyslog (connectClose env s).trace with
      | error e =>
        rw [hu] at hc
        simp at hc
      | ok c2 =>
        rw [hu] at hc
        simp only [Option.some.injEq] at hc
        exact Or.inl (by rw [hc])
    · rw [if_neg hn] at hc
      cases hd : env.netDial (connectClose env s).trace s.l.network s.l.raddr with
      | error e =>
        rw [hd] at hc
        simp at hc
      | ok h =>
        rw [hd] at hc
        simp only [Option.some.injEq] at hc
        exact Or.inr ⟨h, rfl, hc.symm⟩
  · intro c hc
    have h1 := connectClose_trace env s
    have h2 := connect_trace_eq env s
    rw [hc] at h1 h2
    exact ⟨h1, h2⟩
  · intro hc
    have h2 := connect_trace_eq env s
    rw [hc] at h2
    exact ⟨connectClose_of_none env s hc, h2⟩
  · intro g
    show connectOpen { env with connClose := g } (connectClose { env with connClose := g } s) = _
    rw [connectClose_indep, connectOpen_indep]
    rfl
  · intro hn
    rw [herr]
    unfold openError
    rw [hnet, if_pos hn]
  · intro hn
    rw [herr]
    unfold openError
    rw [hnet, hraddr, if_neg hn]

/-- C9 on concrete runs.  A local and a remote connection are replaced in a world
where every close fails: the old connection is closed first, the new one is opened
next and installed, and no error is returned.  In a world where no socket can be
reached the old connection is closed all the same and the Logger is left with
none.  In a world that hands back connection 99, the Logger holds connection 99
afterwards, local or dialled. -/
theorem connect_replaces_witness :
    connect envCloseFails stLive =
      (⟨{ stLive.l with conn := some ⟨true, 2⟩ }, [Event.connClose 1, Event.unixSyslog]⟩,
        none) ∧
    (connect envCloseFails stRemote).1.trace =
      [Event.connClose 7, Event.netDial "udp" "10.0.0.1:514"] ∧
    (connect envCloseFails stRemote).1.l.conn = some ⟨false, 2⟩ ∧
    connect envDown stRemote =
      (⟨{ stRemote.l with conn := none },
          [Event.connClose 7, Event.netDial "udp" "10.0.0.1:514"]⟩,
        some (GoError.sys "dial tcp: connection refused")) ∧
    (connect envNinetyNine stLive).1.l.conn = some ⟨true, 99⟩ ∧
    (connect envNinetyNine stRemote).1.l.conn = some ⟨false, 99⟩ := by
  have h1 := connect_replaces envCloseFails stLive
  have h2 := connect_replaces envCloseFails stRemote
  have h3 := connect_replaces envDown stRemote
  have h4 := connect_replaces envNinetyNine stLive
  have h5 := connect_replaces envNinetyNine stRemote
  refine ⟨?_, ?_, ?_, ?_,
    (h4.2.2.2.2.2.2.2.2.2.2.1 ⟨true, 99⟩ (by decide) rfl).2,
    (h5.2.2.2.2.2.2.2.2.2.2.2.1 99 (by decide) rfl).2⟩
  · rw [h1.1]
    decide
  · rw [(h2.2.2.1 ⟨false, 7⟩ rfl).2]
    decide
  · rw [h2.1]
    decide
  · rw [h3.1]
    decide

/-! ## Rotation -/

/-- A pass of `logRotate` that reaches `Unlock` has closed the old file, then opened
the path again, and has stored the new handle in `file`; `out` is not assigned. -/
theorem logRotateStep_unlocked (env : Env) (filename : String) (perm : Nat) (s t : St)
    (f0 : File) (hf : s.l.file = some f0)
    (h : logRotateStep env filename perm s = Rotated.unlocked t) :
    ∃ f1, t.l = { s.l with file := some f1 } ∧ t.l.out = s.l.out ∧
      t.trace = s.trace ++ [Event.fileClose f0, Event.openFile filename openFlags perm] := by
  unfold logRotateStep at h
  simp only [hf] at h
  cases hcl : env.fileClose s.trace f0 with
  | some e =>
    rw [hcl] at h
    simp at h
  | none =>
    rw [hcl] at h
    simp only [Option.map_none'] at h
    cases hop : env.openFile (s.trace ++ [Event.fileClose f0]) filename openFlags perm with
    | error e =>
      rw [hop] at h
      simp at h
    | ok f1 =>
      rw [hop] at h
      simp only [Rotated.unlocked.injEq] at h
      subst h
      exact ⟨f1, rfl, rfl, by simp⟩

theorem NewLogfile_ok (env : Env) (tr tr1 : List Event) (filename : String) (perm : Nat)
    (tag : String) (flag : Int) (l : Logger) (e : Option GoError)
    (h : NewLogfile env tr filename perm tag flag = (tr1, some l, e)) :
    ∃ f0, l.file = some f0 ∧ l.out = some f0 ∧
      tr1 = tr ++ [Event.openFile filename openFlags perm] := by
  unfold NewLogfile at h
  cases hop : env.openFile tr filename openFlags perm with
  | error e =>
    rw [hop] at h
    simp at h
  | ok f0 =>
    rw [hop] at h
    simp only [Prod.mk.injEq, Option.some.injEq] at h
    obtain ⟨h1, h2, _⟩ := h
    subst h2
    exact ⟨f0, rfl, rfl, h1.symm⟩

/-- After `NewLogfile` and one rotation that reaches `Unlock`, the sink installed by
`SetOutput` is still the handle opened by `NewLogfile`. -/
theorem rotation_out_is_first_handle (env : Env) (tr tr1 : List Event) (filename : String)
    (perm : Nat) (tag : String) (flag : Int) (l : Logger) (e : Option GoError) (t : St)
    (h : NewLogfile env tr filename perm tag flag = (tr1, some l, e))
    (hrot : logRotateStep env filename perm ⟨l, tr1⟩ = Rotated.unlocked t) :
    ∃ f0 f1, l.file = some f0 ∧ l.out = some f0 ∧ t.l.file = some f1 ∧ t.l.out = some f0 ∧
      t.trace = tr1 ++ [Event.fileClose f0, Event.openFile filename openFlags perm] := by
  obtain ⟨f0, hf, ho, _⟩ := NewLogfile_ok env tr tr1 filename perm tag flag l e h
  obtain ⟨f1, h1, h2, h3⟩ := logRotateStep_unlocked env filename perm ⟨l, tr1⟩ t f0 hf hrot
  refine ⟨f0, f1, hf, ho, ?_, ?_, h3⟩
  · rw [h1]
  · rw [h2]
    exact ho

/-- C7, evaluated on a run in which every open and close succeeds.  `NewLogfile`
opens handle 1 and installs it as both `file` and the output sink.  One rotation
closes handle 1, then opens handle 3 and stores it in `file`; the output sink is
still handle 1, the closed one, not the newly opened handle. -/
theorem rotation_leaves_output_on_closed_handle :
    NewLogfile envUp [] "app.log" 438 "my_app" 0 =
      ([Event.openFile "app.log" openFlags 438],
        some { tag := "my_app", file := some 1, out := some 1 }, none) ∧
    logRotate envUp "app.log" 438 1
        ⟨{ tag := "my_app", file := some 1, out := some 1 },
          [Event.openFile "app.log" openFlags 438]⟩ =
      Rotated.unlocked
        ⟨{ tag := "my_app", file := some 3, out := some 1 },
          [Event.openFile "app.log" openFlags 438, Event.fileClose 1,
            Event.openFile "app.log" openFlags 438]⟩ := by
  constructor <;> decide

end Slog
